import Mathlib

/-
Verification of scripts/bidsSynB0.py: the acquisition-grouping, phase-encoding
validation, readout-time resolution and output-sidecar writing logic of the
synb0 BIDS orchestration script.

The script is shallowly embedded: JSON sidecars are association lists of
string keys to JSON values, the on-disk dataset is an association list from
file path to sidecar content, the BIDS layout query results are lists of
image records, and the external tools (fslroi, the synb0 container) are
oracles telling whether they produced their expected output file.  The main
per-group loop (source lines 210-369) is modelled as a function producing a
trace of events, the final state of the sidecar files and a halting status
(completed, sys.exit code, or an uncaught Python exception).
-/

namespace BidsSynB0

/-! ## Python string primitives

The script uses str.replace (all occurrences, scanned left to right) and
str.endswith.  The Lean core versions do not reduce in the kernel, so we
define list-of-characters versions here.  The fuel argument of replaceAux is
the length of the string; every step consumes at least one character, so the
fuel never runs out on the initial call. -/

def replaceAux (pat rep : List Char) : Nat → List Char → List Char
  | _, [] => []
  | 0, s => s
  | fuel+1, c :: rest =>
    if pat.isPrefixOf (c :: rest) ∧ pat ≠ [] then
      rep ++ replaceAux pat rep fuel (List.drop (pat.length - 1) rest)
    else c :: replaceAux pat rep fuel rest

/-- Python str.replace: replace every occurrence of pat by rep, left to
right.  (For an empty pattern Python would interleave rep everywhere; the
script only ever replaces the nonempty literals ".nii.gz" and ".json".) -/
def pyReplace (s pat rep : String) : String :=
  ⟨replaceAux pat.data rep.data s.data.length s.data⟩

/-- Python str.endswith. -/
def pyEndsWith (s suffix : String) : Bool :=
  suffix.data.isSuffixOf s.data

/-! ## JSON sidecar model

Sidecars are JSON objects.  The script reads and writes string values
(PhaseEncodingDirection), numbers (TotalReadoutTime, EffectiveEchoSpacing)
and arrays of strings (IntendedFor, Sources); other JSON shapes are folded
into the catch-all constructors.  An object is an association list in
insertion order, matching Python dict semantics: assignment to an existing
key overwrites in place, assignment to a new key appends. -/

inductive JVal where
  | str : String → JVal
  | num : Rat → JVal
  | strArr : List String → JVal
  | boolean : Bool → JVal
  | null : JVal
  deriving DecidableEq, Repr

/-- A JSON sidecar object: keys to values, in insertion order. -/
abbrev Sidecar := List (String × JVal)

/-- Python dict read access; none models a KeyError. -/
def getKey (sc : Sidecar) (k : String) : Option JVal :=
  match sc with
  | [] => none
  | (k0, v) :: rest => if k0 = k then some v else getKey rest k

/-- Python dict assignment: overwrite in place if the key exists, append
otherwise. -/
def setKey (sc : Sidecar) (k : String) (v : JVal) : Sidecar :=
  match sc with
  | [] => [(k, v)]
  | (k0, v0) :: rest => if k0 = k then (k, v) :: rest else (k0, v0) :: setKey rest k v

/-- The JSON files on disk: path to parsed sidecar content. -/
abbrev FS := List (String × Sidecar)

/-- Opening and json.load-ing a file; none models a FileNotFoundError. -/
def readFS (fs : FS) (p : String) : Option Sidecar :=
  match fs with
  | [] => none
  | (p0, sc) :: rest => if p0 = p then some sc else readFS rest p

/-- Writing a json file (open for write + json.dump), overwriting content. -/
def writeFS (fs : FS) (p : String) (sc : Sidecar) : FS :=
  match fs with
  | [] => [(p, sc)]
  | (p0, sc0) :: rest => if p0 = p then (p, sc) :: rest else (p0, sc0) :: writeFS rest p sc

/-! ## BIDS image records

A pybids BIDSFile, reduced to what the script reads from it: filename, full
path, and the acquisition entity of get_entities().  The layout library is
an external collaborator (a black box mapping query criteria to file handles
plus entity metadata), so the acquisition entity is modelled as an optional
string: none when the file has no acq- entity, some "" for an empty label;
both are falsy in the Python check at line 52. -/

structure BIDSImage where
  filename : String
  path : String
  acquisition : Option String
  deriving DecidableEq, Repr

/-- Sidecar file path of an image: dwi_image.path.replace(".nii.gz", ".json")
(source lines 221, 243, 263). -/
def sidecarPath (p : String) : String :=
  pyReplace p ".nii.gz" ".json"

/-! ## Acquisition Grouper: get_dwi_images (source lines 43-58) -/

/-- The grouping key computed at lines 51-53: the acquisition entity, with
any falsy value (absent entity or empty label) replaced by "noacq". -/
def acqLabel (file : BIDSImage) : String :=
  match file.acquisition with
  | none => "noacq"
  | some s => if s = "" then "noacq" else s

/-- One iteration of the loop at lines 50-56 over the grouped_images dict:
append the file to its group, creating the group at the end (dict insertion
order) if the key is new. -/
def addToGroup (groups : List (String × List BIDSImage)) (k : String) (file : BIDSImage) :
    List (String × List BIDSImage) :=
  match groups with
  | [] => [(k, [file])]
  | (g, l) :: rest =>
    if g = k then (g, l ++ [file]) :: rest else (g, l) :: addToGroup rest k file

/-- get_dwi_images, lines 43-58: group the layout query results by
acquisition label.  The layout query itself is the black-box input list. -/
def get_dwi_images (dwi_images : List BIDSImage) : List (String × List BIDSImage) :=
  dwi_images.foldl (fun groups file => addToGroup groups (acqLabel file) file) []

/-! ## Combine-all override (source lines 150-153) -/

/-- Lines 150-153: collapse a grouping result into the single key "combined"
holding the concatenation of all group member lists, in dict value order. -/
def combine_all_dwis (dwi_groups : List (String × List BIDSImage)) :
    List (String × List BIDSImage) :=
  [("combined", dwi_groups.flatMap (fun g => g.2))]

/-- Lines 148-153 of the top level: group first, then apply the combine-all
transformation to the already-grouped result when the flag is set. -/
def dwi_groups_pipeline (combine_all_flag : Bool) (dwi_images : List BIDSImage) :
    List (String × List BIDSImage) :=
  let dwi_groups := get_dwi_images dwi_images
  if combine_all_flag then combine_all_dwis dwi_groups else dwi_groups

/-! ## Phase-encoding tables and inversion (source lines 276-279, 338-340) -/

/-- phase_encode_vectors, line 276; none models a KeyError on lookup. -/
def phase_encode_vectors (k : String) : Option (List Int) :=
  if k = "i" then some [1, 0, 0]
  else if k = "i-" then some [-1, 0, 0]
  else if k = "j" then some [0, 1, 0]
  else if k = "j-" then some [0, -1, 0]
  else if k = "k" then some [0, 0, 1]
  else if k = "k-" then some [0, 0, -1]
  else none

/-- phase_encode_labels, line 279; none models a KeyError on lookup.  The
superior-inferior codes k and k- have no entry. -/
def phase_encode_labels (k : String) : Option String :=
  if k = "i" then some "RL"
  else if k = "i-" then some "LR"
  else if k = "j" then some "PA"
  else if k = "j-" then some "AP"
  else none

/-- Line 338: strip a trailing "-" if the last character is "-", otherwise
append one.  (Python indexes [-1], which raises on an empty string; the
empty case takes the append branch here and is unreachable in the program.) -/
def fmap_phase_encode_dir (pe_direction : String) : String :=
  if pe_direction.data.getLast? = some (Char.ofNat 45) then
    ⟨pe_direction.data.take (pe_direction.data.length - 1)⟩
  else pe_direction ++ "-"

/-- Lines 342-345: the output field-map file name; the "noacq" group drops
the group name from the acq entity. -/
def fmap_file_name (participant_label session_label group label : String) : String :=
  if group = "noacq" then
    "sub-" ++ participant_label ++ "_ses-" ++ session_label ++ "_acq-synb0_dir-" ++
      label ++ "_epi.nii.gz"
  else
    "sub-" ++ participant_label ++ "_ses-" ++ session_label ++ "_acq-" ++ group ++
      "synb0_dir-" ++ label ++ "_epi.nii.gz"

/-- Lines 359-366: starting from the copied reference sidecar, set
IntendedFor to the session-relative paths of every group member, flip the
phase encode direction, and set the two placeholder timing fields, in source
order. -/
def fmap_sidecar (refSidecar : Sidecar) (session_label : String)
    (group_dwi_images : List BIDSImage) (pe_direction : String) : Sidecar :=
  let fmap_intended_files :=
    group_dwi_images.map (fun file => "ses-" ++ session_label ++ "/dwi/" ++ file.filename)
  setKey (setKey (setKey (setKey refSidecar
    "IntendedFor" (JVal.strArr fmap_intended_files))
    "PhaseEncodingDirection" (JVal.str (fmap_phase_encode_dir pe_direction)))
    "TotalReadoutTime" (JVal.num 0.0000001))
    "EffectiveEchoSpacing" (JVal.num 0.0)

/-! ## Readout-time resolution (source lines 242-259) -/

/-- Lines 242-259: total_readout_time starts as the command-line override;
the try block overwrites it with the sidecar value when present, and on
KeyError marks the group as needing backfill; if the override is also None
the script calls sys.exit(1), modelled as the none result.  The result pairs
the resolved value with the dwi_needs_total_readout_time flag. -/
def total_readout_time (override : Option String) (refSidecar : Sidecar) :
    Option (JVal × Bool) :=
  match getKey refSidecar "TotalReadoutTime" with
  | some v => some (v, false)
  | none =>
    match override with
    | some o => some (JVal.str o, true)
    | none => none

/-- Lines 261-269 as written.  For every image in the group the loop computes
the sidecar path from dwi_ref.path (not from dwi_image.path), reads it, sets
TotalReadoutTime on the in-memory dict (discarded), and then enters
with open(sidecar_file, "w"): the open in write mode truncates the reference
sidecar file to zero bytes BEFORE the body runs, and the body,
json.dump(fmap_sidecar, fmap_sidecar_fh), then raises: on the first group
fmap_sidecar is an undefined name (NameError); on later groups both names
are left over from the previous group and fmap_sidecar_fh is a closed file
handle (ValueError).  So on any nonempty group the first iteration leaves
the reference sidecar empty on disk (modelled as the empty object; the run
dies before anything could try to parse the now-invalid file) and the loop
crashes; the no-error result is only reachable for an empty group.  The
result pairs the file system after the side effects with the raised error,
if any. -/
def backfillReadout (fmapVarsDefined : Bool) (fs : FS) (refPath : String)
    (group_dwi_images : List BIDSImage) : FS × Option String :=
  match group_dwi_images with
  | [] => (fs, none)
  | _ :: _ =>
    match readFS fs (sidecarPath refPath) with
    | none => (fs, some ("FileNotFoundError: " ++ sidecarPath refPath))
    | some _ =>
      (writeFS fs (sidecarPath refPath) [],
       some (if fmapVarsDefined then "ValueError: json.dump to a closed file handle"
             else "NameError: name fmap_sidecar is not defined"))

/-! ## Phase-encoding consistency scan (source lines 213-229) -/

/-- Lines 221-223 and 225/229: read the PhaseEncodingDirection of one image
from its sidecar; errors model FileNotFoundError / KeyError. -/
def readPEDir (fs : FS) (dwi_image : BIDSImage) : Except String JVal :=
  match readFS fs (sidecarPath dwi_image.path) with
  | none => Except.error ("FileNotFoundError: " ++ sidecarPath dwi_image.path)
  | some sidecar =>
    match getKey sidecar "PhaseEncodingDirection" with
    | none => Except.error "KeyError: PhaseEncodingDirection"
    | some v => Except.ok v

/-- The loop of lines 216-229 with its two state variables: pe_direction is
fixed by the first image, every later mismatch clears
pe_direction_consistent, and the scan keeps going over the whole group. -/
def scanPEDirsAux (fs : FS) (pe_direction : Option JVal) (consistent : Bool) :
    List BIDSImage → Except String (Option JVal × Bool)
  | [] => Except.ok (pe_direction, consistent)
  | dwi_image :: rest =>
    match readPEDir fs dwi_image with
    | Except.error e => Except.error e
    | Except.ok v =>
      match pe_direction with
      | some p => scanPEDirsAux fs (some p) (if p = v then consistent else false) rest
      | none => scanPEDirsAux fs (some v) consistent rest

/-- Lines 213-229: scan a whole group starting from (None, True). -/
def scanPEDirs (fs : FS) (group_dwi_images : List BIDSImage) :
    Except String (Option JVal × Bool) :=
  scanPEDirsAux fs none true group_dwi_images

/-! ## The per-group loop (source lines 210-369) as a trace -/

/-- The command-line arguments the loop reads. -/
structure Args where
  bids_dataset : String
  participant_label : String
  session_label : String
  total_readout_time : Option String
  deriving DecidableEq, Repr

/-- Oracles for the external tools: whether fslroi on the given reference
path leaves its output file behind (checked at line 301), and whether the
synb0 container leaves b0_u.nii.gz for the given group (not checked by the
script; its absence surfaces as an uncaught error in shutil.copy at
line 352). -/
structure Tools where
  fslroiCreates : String → Bool
  synb0Creates : String → Bool

/-- Observable events of one run, tagged with the group name. -/
inductive Event where
  | warnedInconsistent : String → Event
  | ranFslroi : String → Event
  | wroteAcqparams : String → List Int → JVal → Event
  | ranSynb0 : String → Event
  | copiedFmap : String → String → Event
  | wroteFmapSidecar : String → String → Event
  deriving DecidableEq, Repr

/-- How a run ends: fell off the end of the loop, called sys.exit, or died
of an uncaught Python exception. -/
inductive Halt where
  | completed : Halt
  | exited : Nat → Halt
  | exn : String → Halt
  deriving DecidableEq, Repr

/-- Lines 296-369: the tail of the loop body, from the fslroi call on.  In
source order: run fslroi and check its output exists (299-303, sys.exit(1)
when absent), write acqparams.txt from the phase_encode_vectors entry
(313-318, KeyError on an unsupported direction), run the container (334),
derive the inverted direction and its label (338-340, KeyError on k / k-),
build the file name (342-345), copy b0_u.nii.gz (352, FileNotFoundError when
the container produced nothing), copy the reference sidecar and rewrite it
with the four edited fields (354-369). -/
def runSynthesis (tools : Tools) (args : Args) (fs : FS) (group : String)
    (group_dwi_images : List BIDSImage) (dwi_ref : BIDSImage) (refSidecar : Sidecar)
    (trt : JVal) (pe_direction : String) : List Event × FS × Option Halt :=
  if tools.fslroiCreates dwi_ref.path = false then
    ([Event.ranFslroi group], fs, some (Halt.exited 1))
  else
    match phase_encode_vectors pe_direction with
    | none => ([Event.ranFslroi group], fs, some (Halt.exn "KeyError: phase_encode_vectors"))
    | some vec =>
      let evs := [Event.ranFslroi group, Event.wroteAcqparams group vec trt,
                  Event.ranSynb0 group]
      match phase_encode_labels (fmap_phase_encode_dir pe_direction) with
      | none => (evs, fs, some (Halt.exn "KeyError: phase_encode_labels"))
      | some label =>
        let fname := fmap_file_name args.participant_label args.session_label group label
        if tools.synb0Creates group = false then
          (evs, fs, some (Halt.exn "FileNotFoundError: b0_u.nii.gz"))
        else
          let output_dir := args.bids_dataset ++ "/sub-" ++ args.participant_label ++
            "/ses-" ++ args.session_label ++ "/fmap"
          let fmap_sidecar_file := output_dir ++ "/" ++ pyReplace fname ".nii.gz" ".json"
          let fs1 := writeFS (writeFS fs fmap_sidecar_file refSidecar) fmap_sidecar_file
            (fmap_sidecar refSidecar args.session_label group_dwi_images pe_direction)
          (evs ++ [Event.copiedFmap group (output_dir ++ "/" ++ fname),
                   Event.wroteFmapSidecar group fmap_sidecar_file],
           fs1, none)

/-- One iteration of the loop at lines 210-369 for one group.  Returns the
events, the resulting file system, the fmap variables flag for the next
iteration, and none to continue versus some halt to stop the whole run. -/
def processGroup (tools : Tools) (args : Args) (fs : FS) (fmapVarsDefined : Bool)
    (group : String) (group_dwi_images : List BIDSImage) :
    List Event × FS × Bool × Option Halt :=
  match scanPEDirs fs group_dwi_images with
  | Except.error e => ([], fs, fmapVarsDefined, some (Halt.exn e))
  | Except.ok (peVal, consistent) =>
    if consistent = false then
      ([Event.warnedInconsistent group], fs, fmapVarsDefined, none)
    else
      match peVal, group_dwi_images with
      | some (JVal.str pe_direction), dwi_ref :: _ =>
        match readFS fs (sidecarPath dwi_ref.path) with
        | none =>
          ([], fs, fmapVarsDefined,
           some (Halt.exn ("FileNotFoundError: " ++ sidecarPath dwi_ref.path)))
        | some refSidecar =>
          match total_readout_time args.total_readout_time refSidecar with
          | none => ([], fs, fmapVarsDefined, some (Halt.exited 1))
          | some (trt, needs) =>
            if needs then
              match backfillReadout fmapVarsDefined fs dwi_ref.path group_dwi_images with
              | (fs1, some e) => ([], fs1, fmapVarsDefined, some (Halt.exn e))
              | (fs0, none) =>
                let r := runSynthesis tools args fs0 group group_dwi_images dwi_ref
                  refSidecar trt pe_direction
                (r.1, r.2.1, if r.2.2.isNone then true else fmapVarsDefined, r.2.2)
            else
              let r := runSynthesis tools args fs group group_dwi_images dwi_ref
                refSidecar trt pe_direction
              (r.1, r.2.1, if r.2.2.isNone then true else fmapVarsDefined, r.2.2)
      | some _, _ =>
        ([], fs, fmapVarsDefined,
         some (Halt.exn "TypeError: PhaseEncodingDirection is not a string"))
      | none, _ =>
        ([], fs, fmapVarsDefined, some (Halt.exn "TypeError: empty group"))

/-- The whole loop at line 210: groups in dict order, threading the file
system and the fmap variables flag; a sys.exit or uncaught exception stops
the remaining groups. -/
def processGroups (tools : Tools) (args : Args) :
    List (String × List BIDSImage) → FS → Bool → List Event × FS × Halt
  | [], fs, _ => ([], fs, Halt.completed)
  | (group, imgs) :: rest, fs, fmapVarsDefined =>
    match processGroup tools args fs fmapVarsDefined group imgs with
    | (evs, fs1, _, some halt) => (evs, fs1, halt)
    | (evs, fs1, fd1, none) =>
      let r := processGroups tools args rest fs1 fd1
      (evs ++ r.1, r.2.1, r.2.2)

/-! ## Brain-mask resolution (source lines 61-86 and 194-206) -/

/-- The anat directory searched at line 63. -/
def mask_dir_path (dataset participant_label session_label : String) : String :=
  dataset ++ "/sub-" ++ participant_label ++ "/ses-" ++ session_label ++ "/anat"

/-- The loop at lines 70-78: first sidecar in listing order whose Sources[0]
ends with the T1w filename; errors model FileNotFoundError, KeyError on a
missing Sources field, IndexError on an empty Sources list, and an attribute
error when Sources[0] is not a string. -/
def findMask (fs : FS) (mask_dir t1w_filename : String) :
    List String → Except String (Option String)
  | [] => Except.ok none
  | f :: rest =>
    match readFS fs (mask_dir ++ "/" ++ f) with
    | none => Except.error ("FileNotFoundError: " ++ mask_dir ++ "/" ++ f)
    | some mask_json =>
      match getKey mask_json "Sources" with
      | none => Except.error "KeyError: Sources"
      | some (JVal.strArr (src0 :: _)) =>
        if pyEndsWith src0 t1w_filename then Except.ok (some f)
        else findMask fs mask_dir t1w_filename rest
      | some (JVal.strArr []) => Except.error "IndexError: Sources is empty"
      | some _ => Except.error "AttributeError: Sources[0] has no endswith"

/-- get_t1w_skull_stripped, lines 61-86: list the anat directory of the given
dataset, keep the files ending in _mask.json, search them for a match, and
when one is found run fslmaths into the working directory and return that
output path; none means no mask was found.  The directory listing is the
black-box filesystem input. -/
def get_t1w_skull_stripped (working_dir dataset participant_label session_label
    t1w_filename : String) (listing : List String) (fs : FS) :
    Except String (Option String) :=
  let mask_dir := mask_dir_path dataset participant_label session_label
  let mask_sidecars := listing.filter (fun f => pyEndsWith f "_mask.json")
  match findMask fs mask_dir t1w_filename mask_sidecars with
  | Except.error e => Except.error e
  | Except.ok none => Except.ok none
  | Except.ok (some _) => Except.ok (some (working_dir ++ "/t1w_skull_stripped.nii.gz"))

/-- Lines 194-201: with a mask dataset, search it; without one, search the
main BIDS dataset itself.  The listing argument is the directory listing of
the anat directory of whichever dataset is searched. -/
def t1w_skull_stripped_path (t1w_mask_dataset : Option String)
    (working_dir bids_dataset participant_label session_label t1w_filename : String)
    (listing : List String) (fs : FS) : Except String (Option String) :=
  match t1w_mask_dataset with
  | some d =>
    get_t1w_skull_stripped working_dir d participant_label session_label
      t1w_filename listing fs
  | none =>
    get_t1w_skull_stripped working_dir bids_dataset participant_label session_label
      t1w_filename listing fs

/-- Lines 203-206: the stripped flag is set exactly when a path was found;
otherwise the script falls back to the internal masking of the container. -/
def t1w_is_skull_stripped (r : Option String) : Bool :=
  r.isSome

/-! ## Concrete fixtures for witnesses and counterexamples -/

/-- External tools that always produce their expected output files. -/
def allTools : Tools := ⟨fun _ => true, fun _ => true⟩

/-- External tools where fslroi produces no output file (for example because
its input path does not exist; fslroi still exits 0 in that case, which is
why line 301 checks the output file instead of the exit status). -/
def noRoiTools : Tools := ⟨fun _ => false, fun _ => true⟩

/-- Invocation arguments without a readout-time override. -/
def baseArgs : Args := ⟨"/b", "01", "1", none⟩

/-- Invocation arguments with a command-line readout-time override. -/
def overrideArgs : Args := ⟨"/b", "01", "1", some "0.05"⟩

/-- A DWI image whose sidecar lacks TotalReadoutTime. -/
def imgNoTrt : BIDSImage := ⟨"c_dwi.nii.gz", "/b/c_dwi.nii.gz", none⟩

/-- File system for imgNoTrt: a sidecar with a direction but no readout
time. -/
def fsNoTrt : FS := [("/b/c_dwi.json", [("PhaseEncodingDirection", JVal.str "j")])]

/-- Two images of the same (absent) acquisition whose sidecars lack
TotalReadoutTime. -/
def c5img1 : BIDSImage := ⟨"a_dwi.nii.gz", "/b/a_dwi.nii.gz", none⟩

def c5img2 : BIDSImage := ⟨"b_dwi.nii.gz", "/b/b_dwi.nii.gz", none⟩

def c5fs : FS :=
  [("/b/a_dwi.json", [("PhaseEncodingDirection", JVal.str "j")]),
   ("/b/b_dwi.json", [("PhaseEncodingDirection", JVal.str "j")])]

/-- Three images in one acquisition group, two with direction i and one with
direction i- (spec scenario B). -/
def c6img1 : BIDSImage := ⟨"a_dwi.nii.gz", "/b/a_dwi.nii.gz", some "g1"⟩

def c6img2 : BIDSImage := ⟨"b_dwi.nii.gz", "/b/b_dwi.nii.gz", some "g1"⟩

def c6img3 : BIDSImage := ⟨"c_dwi.nii.gz", "/b/c_dwi.nii.gz", some "g1"⟩

def c6fs : FS :=
  [("/b/a_dwi.json", [("PhaseEncodingDirection", JVal.str "i")]),
   ("/b/b_dwi.json", [("PhaseEncodingDirection", JVal.str "i")]),
   ("/b/c_dwi.json", [("PhaseEncodingDirection", JVal.str "i-")])]

/-- Two one-image cohorts with complete sidecars, used to observe what
happens to the second cohort when the first one fails. -/
def c9img1 : BIDSImage := ⟨"a_dwi.nii.gz", "/b/a_dwi.nii.gz", some "g1"⟩

def c9img2 : BIDSImage := ⟨"b_dwi.nii.gz", "/b/b_dwi.nii.gz", some "g2"⟩

def c9fs : FS :=
  [("/b/a_dwi.json",
    [("PhaseEncodingDirection", JVal.str "j"), ("TotalReadoutTime", JVal.num 0.05)]),
   ("/b/b_dwi.json",
    [("PhaseEncodingDirection", JVal.str "j"), ("TotalReadoutTime", JVal.num 0.05)])]

/-- Spec scenario A: two DWI images, both acquisition dir98, direction j,
readout time present in both sidecars. -/
def scnA_img1 : BIDSImage :=
  ⟨"a_dwi.nii.gz", "/bids/sub-01/ses-1/dwi/a_dwi.nii.gz", some "dir98"⟩

def scnA_img2 : BIDSImage :=
  ⟨"b_dwi.nii.gz", "/bids/sub-01/ses-1/dwi/b_dwi.nii.gz", some "dir98"⟩

def scnA_fs : FS :=
  [("/bids/sub-01/ses-1/dwi/a_dwi.json",
    [("PhaseEncodingDirection", JVal.str "j"), ("TotalReadoutTime", JVal.num 0.05)]),
   ("/bids/sub-01/ses-1/dwi/b_dwi.json",
    [("PhaseEncodingDirection", JVal.str "j"), ("TotalReadoutTime", JVal.num 0.05)])]

def scnA_args : Args := ⟨"/bids", "01", "1", none⟩

/-- A mask dataset sidecar whose Sources[0] ends with the T1w filename. -/
def c10fs : FS :=
  [("/b/sub-01/ses-1/anat/t1_mask.json",
    [("Sources", JVal.strArr ["bids:raw:sub-01/ses-1/anat/sub-01_ses-1_T1w.nii.gz"])])]

/-! ## Helper lemmas about the sidecar dictionary -/

theorem getKey_setKey_self (sc : Sidecar) (k : String) (v : JVal) :
    getKey (setKey sc k v) k = some v := by
  induction sc with
  | nil => simp [setKey, getKey]
  | cons p rest ih =>
    obtain ⟨k0, v0⟩ := p
    by_cases hk : k0 = k
    · simp [setKey, hk, getKey]
    · simp [setKey, hk, getKey, ih]

theorem getKey_setKey_ne (sc : Sidecar) (k k1 : String) (v : JVal) (hne : k1 ≠ k) :
    getKey (setKey sc k v) k1 = getKey sc k1 := by
  have hne1 : ¬k = k1 := fun h => hne h.symm
  induction sc with
  | nil =>
    simp only [setKey, getKey]
    rw [if_neg hne1]
  | cons p rest ih =>
    obtain ⟨k0, v0⟩ := p
    by_cases hk : k0 = k
    · subst hk
      simp only [setKey, if_pos rfl, getKey]
      rw [if_neg hne1, if_neg hne1]
    · simp only [setKey, if_neg hk, getKey, ih]

/-! ## Helper lemmas about the Acquisition Grouper -/

theorem addToGroup_flatMap (groups : List (String × List BIDSImage)) (k : String)
    (file : BIDSImage) :
    ((addToGroup groups k file).flatMap (fun g => g.2)).Perm
      (groups.flatMap (fun g => g.2) ++ [file]) := by
  induction groups with
  | nil => simp [addToGroup]
  | cons p rest ih =>
    obtain ⟨g, l⟩ := p
    by_cases hg : g = k
    · subst hg
      simp only [addToGroup, eq_self_iff_true, if_true, List.flatMap_cons,
        List.append_assoc]
      exact List.Perm.append_left l List.perm_append_comm
    · simp only [addToGroup, if_neg hg, List.flatMap_cons, List.append_assoc]
      exact List.Perm.append_left l ih

theorem addToGroup_keys (groups : List (String × List BIDSImage)) (k : String)
    (file : BIDSImage) :
    (addToGroup groups k file).map (fun g => g.1) =
      if k ∈ groups.map (fun g => g.1) then groups.map (fun g => g.1)
      else groups.map (fun g => g.1) ++ [k] := by
  induction groups with
  | nil => simp [addToGroup]
  | cons p rest ih =>
    obtain ⟨g, l⟩ := p
    by_cases hg : g = k
    · subst hg
      simp [addToGroup]
    · have hkg : ¬k = g := fun h => hg h.symm
      simp only [addToGroup, if_neg hg, List.map_cons, ih, List.mem_cons]
      by_cases hk : k ∈ rest.map (fun g => g.1)
      · simp [hk, hkg]
      · simp [hk, hkg]

theorem addToGroup_keys_nodup (groups : List (String × List BIDSImage)) (k : String)
    (file : BIDSImage) (h : (groups.map (fun g => g.1)).Nodup) :
    ((addToGroup groups k file).map (fun g => g.1)).Nodup := by
  rw [addToGroup_keys]
  by_cases hk : k ∈ groups.map (fun g => g.1)
  · simpa [hk] using h
  · simp only [hk, if_false]
    simp [List.nodup_append, h, hk]

theorem addToGroup_keyed (groups : List (String × List BIDSImage)) (k : String)
    (file : BIDSImage)
    (hg : ∀ p ∈ groups, ∀ x ∈ p.2, acqLabel x = p.1) (hf : acqLabel file = k) :
    ∀ p ∈ addToGroup groups k file, ∀ x ∈ p.2, acqLabel x = p.1 := by
  induction groups with
  | nil =>
    intro p hp x hx
    simp only [addToGroup, List.mem_singleton] at hp
    subst hp
    simp only [List.mem_singleton] at hx
    subst hx
    exact hf
  | cons q rest ih =>
    obtain ⟨g, l⟩ := q
    intro p hp x hx
    by_cases hgk : g = k
    · subst hgk
      simp only [addToGroup, eq_self_iff_true, if_true, List.mem_cons] at hp
      rcases hp with hp | hp
      · subst hp
        simp only [List.mem_append, List.mem_singleton] at hx
        rcases hx with hx | hx
        · exact hg (g, l) (List.mem_cons_self _ _) x hx
        · subst hx
          exact hf
      · exact hg p (List.mem_cons_of_mem _ hp) x hx
    · simp only [addToGroup, if_neg hgk, List.mem_cons] at hp
      rcases hp with hp | hp
      · subst hp
        exact hg (g, l) (List.mem_cons_self _ _) x hx
      · exact ih (fun p hp => hg p (List.mem_cons_of_mem _ hp)) p hp x hx

theorem get_dwi_images_aux (dwi_images : List BIDSImage) :
    ∀ acc : List (String × List BIDSImage),
    (acc.map (fun g => g.1)).Nodup →
    (∀ p ∈ acc, ∀ x ∈ p.2, acqLabel x = p.1) →
    (((dwi_images.foldl (fun groups file => addToGroup groups (acqLabel file) file)
        acc).map (fun g => g.1)).Nodup
    ∧ (∀ p ∈ dwi_images.foldl (fun groups file => addToGroup groups (acqLabel file) file)
        acc, ∀ x ∈ p.2, acqLabel x = p.1)
    ∧ ((dwi_images.foldl (fun groups file => addToGroup groups (acqLabel file) file)
        acc).flatMap (fun g => g.2)).Perm (acc.flatMap (fun g => g.2) ++ dwi_images)) := by
  induction dwi_images with
  | nil =>
    intro acc h1 h2
    exact ⟨h1, h2, by simp⟩
  | cons f rest ih =>
    intro acc h1 h2
    simp only [List.foldl_cons]
    obtain ⟨k1, k2, k3⟩ := ih (addToGroup acc (acqLabel f) f)
      (addToGroup_keys_nodup acc _ f h1) (addToGroup_keyed acc _ f h2 rfl)
    refine ⟨k1, k2, k3.trans ?_⟩
    have hstep := (addToGroup_flatMap acc (acqLabel f) f).append_right rest
    simpa using hstep

theorem get_dwi_images_perm (dwi_images : List BIDSImage) :
    ((get_dwi_images dwi_images).flatMap (fun g => g.2)).Perm dwi_images := by
  have h := (get_dwi_images_aux dwi_images [] (by simp) (by simp)).2.2
  simpa [get_dwi_images] using h

theorem get_dwi_images_keys_nodup (dwi_images : List BIDSImage) :
    ((get_dwi_images dwi_images).map (fun g => g.1)).Nodup :=
  (get_dwi_images_aux dwi_images [] (by simp) (by simp)).1

theorem get_dwi_images_keyed (dwi_images : List BIDSImage) :
    ∀ p ∈ get_dwi_images dwi_images, ∀ x ∈ p.2, acqLabel x = p.1 :=
  (get_dwi_images_aux dwi_images [] (by simp) (by simp)).2.1

/-- C1: the Acquisition Grouper get_dwi_images partitions its input exactly:
the concatenation of the groups is a permutation of the input sequence
(union = input), groups with different keys share no image and keys are
pairwise distinct (disjointness), every image sits in the group keyed by its
acquisition label, and an image whose acquisition entity is absent lands in
the group keyed "noacq". -/
theorem C1_grouper_partitions (dwi_images : List BIDSImage) :
    ((get_dwi_images dwi_images).flatMap (fun g => g.2)).Perm dwi_images
    ∧ (∀ p ∈ get_dwi_images dwi_images, ∀ q ∈ get_dwi_images dwi_images,
        p.1 ≠ q.1 → ∀ x ∈ p.2, x ∉ q.2)
    ∧ ((get_dwi_images dwi_images).map (fun g => g.1)).Nodup
    ∧ (∀ p ∈ get_dwi_images dwi_images, ∀ x ∈ p.2, acqLabel x = p.1)
    ∧ (∀ file ∈ dwi_images, ∃ members,
        (acqLabel file, members) ∈ get_dwi_images dwi_images ∧ file ∈ members)
    ∧ (∀ file : BIDSImage, file.acquisition = none → acqLabel file = "noacq") := by
  refine ⟨get_dwi_images_perm dwi_images, ?_, get_dwi_images_keys_nodup dwi_images,
    get_dwi_images_keyed dwi_images, ?_, ?_⟩
  · intro p hp q hq hne x hxp hxq
    have h1 := get_dwi_images_keyed dwi_images p hp x hxp
    have h2 := get_dwi_images_keyed dwi_images q hq x hxq
    exact hne (h1.symm.trans h2)
  · intro file hf
    have hmem : file ∈ (get_dwi_images dwi_images).flatMap (fun g => g.2) :=
      (get_dwi_images_perm dwi_images).mem_iff.mpr hf
    rcases List.mem_flatMap.mp hmem with ⟨p, hp, hfp⟩
    refine ⟨p.2, ?_, hfp⟩
    rw [get_dwi_images_keyed dwi_images p hp file hfp]
    exact hp
  · intro file hnone
    simp [acqLabel, hnone]

/-- Witness for C1 at a concrete input: a single image without an
acquisition entity lands in the "noacq" group. -/
theorem C1_grouper_partitions_witness :
    ∃ members, ("noacq", members) ∈
      get_dwi_images [⟨"a_dwi.nii.gz", "/b/a_dwi.nii.gz", none⟩] ∧
      (⟨"a_dwi.nii.gz", "/b/a_dwi.nii.gz", none⟩ : BIDSImage) ∈ members := by
  have h := (C1_grouper_partitions [⟨"a_dwi.nii.gz", "/b/a_dwi.nii.gz", none⟩]).2.2.2.2.1
    ⟨"a_dwi.nii.gz", "/b/a_dwi.nii.gz", none⟩ (by simp)
  simpa [acqLabel] using h

/-- C2: the combine-all flag collapses any grouping result into exactly one
group keyed "combined" whose members are the concatenation of all original
group member lists; applied after grouping (on the already-grouped result),
its membership is a permutation of the full original input. -/
theorem C2_combine_override (dwi_images : List BIDSImage)
    (dwi_groups : List (String × List BIDSImage)) :
    combine_all_dwis dwi_groups =
      [("combined", dwi_groups.flatMap (fun g => g.2))]
    ∧ (combine_all_dwis dwi_groups).length = 1
    ∧ dwi_groups_pipeline true dwi_images = combine_all_dwis (get_dwi_images dwi_images)
    ∧ ((dwi_groups_pipeline true dwi_images).flatMap (fun g => g.2)).Perm dwi_images
    ∧ (dwi_groups_pipeline true dwi_images).map (fun g => g.1) = ["combined"] := by
  refine ⟨rfl, rfl, rfl, ?_, rfl⟩
  simpa [dwi_groups_pipeline, combine_all_dwis] using get_dwi_images_perm dwi_images

/-- C3: the phase-encoding inversion of line 338 is involutive on the four
supported direction codes, and the filename-label table of line 279 has no
entry for the superior-inferior codes k and k- (so the lookup at line 340
raises a KeyError, modelled as none) while it maps the four axial codes to
their labels. -/
theorem C3_inversion_involutive_k_unsupported :
    fmap_phase_encode_dir (fmap_phase_encode_dir "i") = "i"
    ∧ fmap_phase_encode_dir (fmap_phase_encode_dir "i-") = "i-"
    ∧ fmap_phase_encode_dir (fmap_phase_encode_dir "j") = "j"
    ∧ fmap_phase_encode_dir (fmap_phase_encode_dir "j-") = "j-"
    ∧ phase_encode_labels "k" = none
    ∧ phase_encode_labels "k-" = none
    ∧ phase_encode_labels "i" = some "RL"
    ∧ phase_encode_labels "i-" = some "LR"
    ∧ phase_encode_labels "j" = some "PA"
    ∧ phase_encode_labels "j-" = some "AP" := by
  decide

/-- C7: the Output Sidecar Writer starts from the reference sidecar and
overwrites exactly the four fields IntendedFor (session-relative path of
every group member), PhaseEncodingDirection (inverted axis),
TotalReadoutTime (the fixed small positive placeholder 0.0000001) and
EffectiveEchoSpacing (zero); every other key keeps the inherited value. -/
theorem C7_fmap_sidecar_frame (refSidecar : Sidecar) (session_label : String)
    (group_dwi_images : List BIDSImage) (pe_direction : String) :
    getKey (fmap_sidecar refSidecar session_label group_dwi_images pe_direction)
        "IntendedFor" =
      some (JVal.strArr (group_dwi_images.map
        (fun file => "ses-" ++ session_label ++ "/dwi/" ++ file.filename)))
    ∧ getKey (fmap_sidecar refSidecar session_label group_dwi_images pe_direction)
        "PhaseEncodingDirection" = some (JVal.str (fmap_phase_encode_dir pe_direction))
    ∧ getKey (fmap_sidecar refSidecar session_label group_dwi_images pe_direction)
        "TotalReadoutTime" = some (JVal.num 0.0000001)
    ∧ (0 : Rat) < 0.0000001
    ∧ getKey (fmap_sidecar refSidecar session_label group_dwi_images pe_direction)
        "EffectiveEchoSpacing" = some (JVal.num 0.0)
    ∧ (∀ k : String, k ≠ "IntendedFor" → k ≠ "PhaseEncodingDirection" →
        k ≠ "TotalReadoutTime" → k ≠ "EffectiveEchoSpacing" →
        getKey (fmap_sidecar refSidecar session_label group_dwi_images pe_direction) k =
          getKey refSidecar k) := by
  simp only [fmap_sidecar]
  refine ⟨?_, ?_, ?_, by norm_num, ?_, ?_⟩
  · rw [getKey_setKey_ne _ _ _ _ (by decide), getKey_setKey_ne _ _ _ _ (by decide),
      getKey_setKey_ne _ _ _ _ (by decide), getKey_setKey_self]
  · rw [getKey_setKey_ne _ _ _ _ (by decide), getKey_setKey_ne _ _ _ _ (by decide),
      getKey_setKey_self]
  · rw [getKey_setKey_ne _ _ _ _ (by decide), getKey_setKey_self]
  · rw [getKey_setKey_self]
  · intro k h1 h2 h3 h4
    rw [getKey_setKey_ne _ _ _ _ h4, getKey_setKey_ne _ _ _ _ h3,
      getKey_setKey_ne _ _ _ _ h2, getKey_setKey_ne _ _ _ _ h1]

/-- Witness for C7 at a concrete input: a field the writer does not touch is
passed through unchanged. -/
theorem C7_fmap_sidecar_frame_witness :
    getKey (fmap_sidecar [("Manufacturer", JVal.str "X")] "1" [] "j") "Manufacturer" =
      some (JVal.str "X") := by
  have h := (C7_fmap_sidecar_frame [("Manufacturer", JVal.str "X")] "1" [] "j").2.2.2.2.2
    "Manufacturer" (by decide) (by decide) (by decide) (by decide)
  rw [h]
  rfl

/-- C4: readout-time resolution precedence.  A sidecar TotalReadoutTime
always wins, whatever the override; the override is used (as the resolved
value, flagged for backfill) only when the sidecar value is absent; when
both are absent the resolution yields the sys.exit(1) outcome.  Moreover the
resolved value is exactly what goes into acqparams.txt; processing any
cohort (consistent, readable reference sidecar) with neither sidecar value
nor override halts the whole invocation with exit code 1 producing no
events for that cohort, so no synthesis is invoked for it or after it; and
a run whose first cohort is in that state exits 1 with an empty trace, in
particular before any synthesis tool invocation. -/
theorem C4_readout_precedence :
    (∀ (override : Option String) (refSidecar : Sidecar) (v : JVal),
        getKey refSidecar "TotalReadoutTime" = some v →
        total_readout_time override refSidecar = some (v, false))
    ∧ (∀ (o : String) (refSidecar : Sidecar),
        getKey refSidecar "TotalReadoutTime" = none →
        total_readout_time (some o) refSidecar = some (JVal.str o, true))
    ∧ (∀ refSidecar : Sidecar,
        getKey refSidecar "TotalReadoutTime" = none →
        total_readout_time none refSidecar = none)
    ∧ (∀ (tools : Tools) (args : Args) (fs : FS) (group : String)
        (imgs : List BIDSImage) (dwi_ref : BIDSImage) (refSidecar : Sidecar)
        (trt : JVal) (pe : String) (vec : List Int),
        phase_encode_vectors pe = some vec →
        tools.fslroiCreates dwi_ref.path = true →
        Event.wroteAcqparams group vec trt ∈
          (runSynthesis tools args fs group imgs dwi_ref refSidecar trt pe).1)
    ∧ (∀ (tools : Tools) (args : Args) (fs : FS) (fd : Bool) (group : String)
        (dwi_ref : BIDSImage) (others : List BIDSImage) (pe : String)
        (refSidecar : Sidecar),
        args.total_readout_time = none →
        scanPEDirs fs (dwi_ref :: others) = Except.ok (some (JVal.str pe), true) →
        readFS fs (sidecarPath dwi_ref.path) = some refSidecar →
        getKey refSidecar "TotalReadoutTime" = none →
        processGroup tools args fs fd group (dwi_ref :: others) =
          ([], fs, fd, some (Halt.exited 1)))
    ∧ (∀ (tools : Tools) (args : Args) (fs : FS) (fd : Bool) (group : String)
        (dwi_ref : BIDSImage) (others : List BIDSImage)
        (rest : List (String × List BIDSImage)) (pe : String) (refSidecar : Sidecar),
        args.total_readout_time = none →
        scanPEDirs fs (dwi_ref :: others) = Except.ok (some (JVal.str pe), true) →
        readFS fs (sidecarPath dwi_ref.path) = some refSidecar →
        getKey refSidecar "TotalReadoutTime" = none →
        processGroups tools args ((group, dwi_ref :: others) :: rest) fs fd =
          ([], fs, Halt.exited 1)) := by
  refine ⟨?_, ?_, ?_, ?_, ?_, ?_⟩
  · intro override refSidecar v h
    simp [total_readout_time, h]
  · intro o refSidecar h
    simp [total_readout_time, h]
  · intro refSidecar h
    simp [total_readout_time, h]
  · intro tools args fs group imgs dwi_ref refSidecar trt pe vec hvec hroi
    simp only [runSynthesis, hroi, hvec]
    cases hpl : phase_encode_labels (fmap_phase_encode_dir pe) with
    | none => simp [hpl]
    | some label =>
      by_cases hsb : tools.synb0Creates group = false <;> simp [hpl, hsb]
  · intro tools args fs fd group dwi_ref others pe refSidecar hov hscan hfs htrt
    simp [processGroup, hscan, hfs, total_readout_time, htrt, hov]
  · intro tools args fs fd group dwi_ref others rest pe refSidecar hov hscan hfs htrt
    simp [processGroups, processGroup, hscan, hfs, total_readout_time, htrt, hov]

/-- Witness for C4 at a concrete input: one cohort, sidecar without
TotalReadoutTime, no override; the run exits 1 with an empty event trace. -/
theorem C4_readout_precedence_witness :
    processGroups allTools baseArgs [("noacq", [imgNoTrt])] fsNoTrt false =
      ([], fsNoTrt, Halt.exited 1) :=
  C4_readout_precedence.2.2.2.2.2 allTools baseArgs fsNoTrt false "noacq" imgNoTrt []
    [] "j" [("PhaseEncodingDirection", JVal.str "j")] rfl rfl rfl rfl

/-- C5: the backfill loop of lines 261-269 does not write the override into
each image's own sidecar.  It computes the file path from dwi_ref for every
member, and its first iteration opens that reference sidecar in write mode
(truncating it to empty on disk) and then calls json.dump on names left
over from a different scope, raising NameError on the first group.  At the
concrete failing input the whole run dies with that error, the reference
sidecar is left truncated (not carrying the override, let alone its old
fields), and the other member's own sidecar is untouched and still lacks
TotalReadoutTime; in general the backfill on any nonempty cohort raises
instead of performing the intended per-image writes. -/
theorem C5_backfill_crashes :
    (processGroups allTools overrideArgs [("noacq", [c5img1, c5img2])] c5fs false =
      ([], [("/b/a_dwi.json", []),
            ("/b/b_dwi.json", [("PhaseEncodingDirection", JVal.str "j")])],
       Halt.exn "NameError: name fmap_sidecar is not defined"))
    ∧ readFS (processGroups allTools overrideArgs [("noacq", [c5img1, c5img2])] c5fs
        false).2.1 "/b/a_dwi.json" = some []
    ∧ (getKey ((readFS (processGroups allTools overrideArgs
          [("noacq", [c5img1, c5img2])] c5fs false).2.1 "/b/b_dwi.json").getD [])
        "TotalReadoutTime" = none)
    ∧ (∀ (fd : Bool) (fs : FS) (refPath : String) (img : BIDSImage)
        (rest : List BIDSImage), ∃ e fs1,
        backfillReadout fd fs refPath (img :: rest) = (fs1, some e)) := by
  refine ⟨by decide, by decide, by decide, ?_⟩
  intro fd fs refPath img rest
  cases h : readFS fs (sidecarPath refPath) with
  | none =>
    exact ⟨"FileNotFoundError: " ++ sidecarPath refPath, fs,
      by simp [backfillReadout, h]⟩
  | some sc =>
    refine ⟨if fd = true then "ValueError: json.dump to a closed file handle"
      else "NameError: name fmap_sidecar is not defined",
      writeFS fs (sidecarPath refPath) [], ?_⟩
    simp [backfillReadout, h]

/-- Helper: scanning a list of readable images with the direction already
fixed at d0 keeps d0, and the consistency flag can only survive as true if
it was true and every scanned image reads exactly d0. -/
theorem scanPEDirsAux_ok (fs : FS) (d0 : JVal) :
    ∀ (l : List BIDSImage) (b : Bool),
    (∀ y ∈ l, ∃ w, readPEDir fs y = Except.ok w) →
    ∃ b1, scanPEDirsAux fs (some d0) b l = Except.ok (some d0, b1) ∧
      (b1 = true → b = true ∧ ∀ y ∈ l, readPEDir fs y = Except.ok d0) := by
  intro l
  induction l with
  | nil =>
    intro b _
    exact ⟨b, rfl, fun hb => ⟨hb, by simp⟩⟩
  | cons y l ih =>
    intro b hread
    obtain ⟨w, hw⟩ := hread y (List.mem_cons_self _ _)
    obtain ⟨b1, hb1, hprop⟩ := ih (if d0 = w then b else false)
      (fun z hz => hread z (List.mem_cons_of_mem _ hz))
    refine ⟨b1, ?_, ?_⟩
    · simp only [scanPEDirsAux, hw]
      exact hb1
    · intro h1
      obtain ⟨hb, hall⟩ := hprop h1
      by_cases hdw : d0 = w
      · subst hdw
        rw [if_pos rfl] at hb
        refine ⟨hb, ?_⟩
        intro z hz
        rcases List.mem_cons.mp hz with h | h
        · subst h
          exact hw
        · exact hall z h
      · rw [if_neg hdw] at hb
        exact absurd hb (by simp)

/-- C6: partial-failure semantics of phase-encoding validation.  A cohort
whose scan ends with the consistency flag cleared contributes exactly one
warning event, no synthesis and no file writes, and the remaining cohorts
are processed exactly as they would have been without it; and the flag is
cleared whenever some member reads a direction different from the first
member's. -/
theorem C6_inconsistent_cohort_skipped :
    (∀ (tools : Tools) (args : Args) (fs : FS) (fd : Bool) (group : String)
        (imgs : List BIDSImage) (d : Option JVal)
        (rest : List (String × List BIDSImage)),
        scanPEDirs fs imgs = Except.ok (d, false) →
        processGroups tools args ((group, imgs) :: rest) fs fd =
          (Event.warnedInconsistent group :: (processGroups tools args rest fs fd).1,
           (processGroups tools args rest fs fd).2.1,
           (processGroups tools args rest fs fd).2.2))
    ∧ (∀ (fs : FS) (ref : BIDSImage) (others : List BIDSImage) (d0 v : JVal)
        (x : BIDSImage),
        readPEDir fs ref = Except.ok d0 →
        (∀ y ∈ others, ∃ w, readPEDir fs y = Except.ok w) →
        x ∈ others → readPEDir fs x = Except.ok v → v ≠ d0 →
        scanPEDirs fs (ref :: others) = Except.ok (some d0, false)) := by
  constructor
  · intro tools args fs fd group imgs d rest hscan
    simp [processGroups, processGroup, hscan]
  · intro fs ref others d0 v x href hread hx hxv hvd
    obtain ⟨b1, hb1, hprop⟩ := scanPEDirsAux_ok fs d0 others true hread
    have hb1f : b1 = false := by
      cases b1 with
      | false => rfl
      | true =>
        exfalso
        obtain ⟨_, hall⟩ := hprop rfl
        have hx0 := hall x hx
        rw [hxv] at hx0
        exact hvd (Except.ok.inj hx0)
    simp only [scanPEDirs, scanPEDirsAux, href]
    rw [hb1, hb1f]

/-- Witness for C6 at spec scenario B: directions i, i, i- in one group; the
cohort is skipped with a warning and the run completes with no synthesis
events and no writes. -/
theorem C6_inconsistent_cohort_skipped_witness :
    processGroups allTools baseArgs [("g1", [c6img1, c6img2, c6img3])] c6fs false =
      ([Event.warnedInconsistent "g1"], c6fs, Halt.completed) := by
  rw [C6_inconsistent_cohort_skipped.1 allTools baseArgs c6fs false "g1"
    [c6img1, c6img2, c6img3] (some (JVal.str "i")) [] rfl]
  rfl

/-- C9 as stated is false on the code: when fslroi leaves no output file the
script calls sys.exit(1) (line 303), so the failure is not scoped to the
cohort and the remaining cohorts are not processed.  Concretely: two
one-image cohorts, fslroi produces nothing; the run exits 1 after the g1
fslroi call, and no event of cohort g2 ever happens. -/
theorem C9_counterexample_exit_aborts_run :
    processGroups noRoiTools baseArgs [("g1", [c9img1]), ("g2", [c9img2])] c9fs false =
      ([Event.ranFslroi "g1"], c9fs, Halt.exited 1)
    ∧ Event.ranFslroi "g2" ∉
      (processGroups noRoiTools baseArgs [("g1", [c9img1]), ("g2", [c9img2])] c9fs
        false).1
    ∧ (processGroups noRoiTools baseArgs [("g1", [c9img1]), ("g2", [c9img2])] c9fs
        false).2.2 ≠ Halt.completed := by
  refine ⟨rfl, by decide, by decide⟩

/-- C9 (amended): after the fslroi call the script checks the output file
itself (the oracle models output-file existence, the fslroi exit status is
ignored).  When the b0 output file is absent the whole invocation exits with
code 1 right there: the cohort gets no synthesis, and no remaining cohort is
processed.  When the file is present the cohort proceeds to the synthesis
invocation. -/
theorem C9_b0_output_check :
    (∀ (tools : Tools) (args : Args) (fs : FS) (fd : Bool) (group : String)
        (dwi_ref : BIDSImage) (others : List BIDSImage)
        (rest : List (String × List BIDSImage)) (pe : String) (refSidecar : Sidecar)
        (trt : JVal),
        scanPEDirs fs (dwi_ref :: others) = Except.ok (some (JVal.str pe), true) →
        readFS fs (sidecarPath dwi_ref.path) = some refSidecar →
        getKey refSidecar "TotalReadoutTime" = some trt →
        tools.fslroiCreates dwi_ref.path = false →
        processGroups tools args ((group, dwi_ref :: others) :: rest) fs fd =
          ([Event.ranFslroi group], fs, Halt.exited 1))
    ∧ (∀ (tools : Tools) (args : Args) (fs : FS) (group : String)
        (imgs : List BIDSImage) (dwi_ref : BIDSImage) (refSidecar : Sidecar)
        (trt : JVal) (pe : String) (vec : List Int),
        phase_encode_vectors pe = some vec →
        tools.fslroiCreates dwi_ref.path = true →
        Event.ranSynb0 group ∈
          (runSynthesis tools args fs group imgs dwi_ref refSidecar trt pe).1) := by
  constructor
  · intro tools args fs fd group dwi_ref others rest pe refSidecar trt
      hscan hfs htrt hroi
    simp [processGroups, processGroup, hscan, hfs, total_readout_time, htrt,
      runSynthesis, hroi]
  · intro tools args fs group imgs dwi_ref refSidecar trt pe vec hvec hroi
    simp only [runSynthesis, hroi, hvec]
    cases hpl : phase_encode_labels (fmap_phase_encode_dir pe) with
    | none => simp [hpl]
    | some label =>
      by_cases hsb : tools.synb0Creates group = false <;> simp [hpl, hsb]

/-- Witness for C9 (amended) at a concrete input: a single cohort whose b0
extraction leaves no file; the run exits 1 after only the fslroi event. -/
theorem C9_b0_output_check_witness :
    processGroups noRoiTools baseArgs [("g1", [c9img1])] c9fs false =
      ([Event.ranFslroi "g1"], c9fs, Halt.exited 1) :=
  C9_b0_output_check.1 noRoiTools baseArgs c9fs false "g1" c9img1 [] [] "j"
    [("PhaseEncodingDirection", JVal.str "j"), ("TotalReadoutTime", JVal.num 0.05)]
    (JVal.num 0.05) rfl rfl rfl rfl

/-- C8: the output field-map file name.  In general it is
sub-P_ses-S_acq-GROUPsynb0_dir-LABEL_epi.nii.gz, with the "noacq" group
dropping the group name (acq-synb0).  At spec scenario A (group dir98,
direction j, subject 01, session 1) the derived label is AP, the full run
writes sub-01_ses-1_acq-dir98synb0_dir-AP_epi.nii.gz, and the written
sidecar has PhaseEncodingDirection j-. -/
theorem C8_fmap_naming :
    (∀ p s g l : String, g ≠ "noacq" →
      fmap_file_name p s g l =
        "sub-" ++ p ++ "_ses-" ++ s ++ "_acq-" ++ g ++ "synb0_dir-" ++ l ++
          "_epi.nii.gz")
    ∧ (∀ p s l : String,
      fmap_file_name p s "noacq" l =
        "sub-" ++ p ++ "_ses-" ++ s ++ "_acq-synb0_dir-" ++ l ++ "_epi.nii.gz")
    ∧ phase_encode_labels (fmap_phase_encode_dir "j") = some "AP"
    ∧ (get_dwi_images [scnA_img1, scnA_img2]).map (fun g => g.1) = ["dir98"]
    ∧ Event.copiedFmap "dir98"
        "/bids/sub-01/ses-1/fmap/sub-01_ses-1_acq-dir98synb0_dir-AP_epi.nii.gz" ∈
      (processGroups allTools scnA_args (get_dwi_images [scnA_img1, scnA_img2])
        scnA_fs false).1
    ∧ getKey ((readFS (processGroups allTools scnA_args
          (get_dwi_images [scnA_img1, scnA_img2]) scnA_fs false).2.1
          "/bids/sub-01/ses-1/fmap/sub-01_ses-1_acq-dir98synb0_dir-AP_epi.json").getD
          []) "PhaseEncodingDirection" = some (JVal.str "j-")
    ∧ (processGroups allTools scnA_args (get_dwi_images [scnA_img1, scnA_img2])
        scnA_fs false).2.2 = Halt.completed := by
  refine ⟨?_, fun p s l => rfl, by decide, by decide, by decide, by decide, by decide⟩
  intro p s g l hg
  simp [fmap_file_name, hg]

/-- Witness for C8 at a concrete input: the non-noacq filename pattern at
scenario A values. -/
theorem C8_fmap_naming_witness :
    fmap_file_name "01" "1" "dir98" "AP" =
      "sub-" ++ "01" ++ "_ses-" ++ "1" ++ "_acq-" ++ "dir98" ++ "synb0_dir-" ++
        "AP" ++ "_epi.nii.gz" :=
  C8_fmap_naming.1 "01" "1" "dir98" "AP" (by decide)

/-- Helper: when every listed sidecar is readable, declares Sources, and its
first source does not end with the T1w filename, the search finds nothing. -/
theorem findMask_all_miss (fs : FS) (mask_dir t1w : String) :
    ∀ files : List String,
    (∀ f ∈ files, ∃ json src0 tl,
      readFS fs (mask_dir ++ "/" ++ f) = some json ∧
      getKey json "Sources" = some (JVal.strArr (src0 :: tl)) ∧
      pyEndsWith src0 t1w = false) →
    findMask fs mask_dir t1w files = Except.ok none := by
  intro files
  induction files with
  | nil => intro _; rfl
  | cons f rest ih =>
    intro h
    obtain ⟨json, src0, tl, h1, h2, h3⟩ := h f (List.mem_cons_self _ _)
    simp only [findMask, h1, h2, h3]
    exact ih (fun g hg => h g (List.mem_cons_of_mem _ hg))

/-- Helper: when every listed sidecar is readable and declares Sources, and
some listed sidecar's first source ends with the T1w filename, the search
returns a match. -/
theorem findMask_hit (fs : FS) (mask_dir t1w : String) :
    ∀ files : List String,
    (∀ f ∈ files, ∃ json src0 tl,
      readFS fs (mask_dir ++ "/" ++ f) = some json ∧
      getKey json "Sources" = some (JVal.strArr (src0 :: tl))) →
    (∃ f ∈ files, ∃ json src0 tl,
      readFS fs (mask_dir ++ "/" ++ f) = some json ∧
      getKey json "Sources" = some (JVal.strArr (src0 :: tl)) ∧
      pyEndsWith src0 t1w = true) →
    ∃ f0, findMask fs mask_dir t1w files = Except.ok (some f0) := by
  intro files
  induction files with
  | nil =>
    intro _ hex
    rcases hex with ⟨f, hf, _⟩
    exact absurd hf (List.not_mem_nil f)
  | cons f rest ih =>
    intro hall hex
    obtain ⟨json, src0, tl, h1, h2⟩ := hall f (List.mem_cons_self _ _)
    by_cases hend : pyEndsWith src0 t1w = true
    · exact ⟨f, by simp [findMask, h1, h2, hend]⟩
    · have hrest : ∃ g ∈ rest, ∃ json src0 tl,
          readFS fs (mask_dir ++ "/" ++ g) = some json ∧
          getKey json "Sources" = some (JVal.strArr (src0 :: tl)) ∧
          pyEndsWith src0 t1w = true := by
        rcases hex with ⟨g, hg, json1, src1, tl1, hh1, hh2, hh3⟩
        rcases List.mem_cons.mp hg with hgf | hgr
        · exfalso
          subst hgf
          rw [h1] at hh1
          injection hh1 with hj
          subst hj
          rw [h2] at hh2
          injection hh2 with hs
          injection hs with hlist
          rw [(List.cons.injEq _ _ _ _ ▸ hlist : src0 = src1 ∧ tl = tl1).1] at hend
          exact hend hh3
        · exact ⟨g, hgr, json1, src1, tl1, hh1, hh2, hh3⟩
      obtain ⟨f0, hf0⟩ := ih (fun z hz => hall z (List.mem_cons_of_mem _ hz)) hrest
      refine ⟨f0, ?_⟩
      simp only [findMask, h1, h2]
      rw [if_neg hend]
      exact hf0

/-- C10: with no auxiliary mask dataset on the command line, the script does
not go straight to internal brain masking: it runs the same mask search over
the main BIDS dataset itself (the subject/session anat directory, files
ending in _mask.json, matched by Sources[0] ending with the T1w filename).
Internal masking (stripped flag false) is the fallback only when that search
finds nothing; when it finds a match the skull-stripped path is produced and
the stripped flag is set. -/
theorem C10_mask_search_precedes_internal (working_dir bids_dataset participant_label
    session_label t1w_filename : String) (listing : List String) (fs : FS) :
    (t1w_skull_stripped_path none working_dir bids_dataset participant_label
        session_label t1w_filename listing fs =
      get_t1w_skull_stripped working_dir bids_dataset participant_label session_label
        t1w_filename listing fs)
    ∧ (findMask fs (mask_dir_path bids_dataset participant_label session_label)
          t1w_filename (listing.filter (fun f => pyEndsWith f "_mask.json")) =
        Except.ok none →
      t1w_skull_stripped_path none working_dir bids_dataset participant_label
          session_label t1w_filename listing fs = Except.ok none
      ∧ t1w_is_skull_stripped none = false)
    ∧ ((∀ f ∈ listing.filter (fun f => pyEndsWith f "_mask.json"), ∃ json src0 tl,
          readFS fs (mask_dir_path bids_dataset participant_label session_label ++
            "/" ++ f) = some json ∧
          getKey json "Sources" = some (JVal.strArr (src0 :: tl))) →
      (∃ f ∈ listing.filter (fun f => pyEndsWith f "_mask.json"), ∃ json src0 tl,
          readFS fs (mask_dir_path bids_dataset participant_label session_label ++
            "/" ++ f) = some json ∧
          getKey json "Sources" = some (JVal.strArr (src0 :: tl)) ∧
          pyEndsWith src0 t1w_filename = true) →
      t1w_skull_stripped_path none working_dir bids_dataset participant_label
          session_label t1w_filename listing fs =
        Except.ok (some (working_dir ++ "/t1w_skull_stripped.nii.gz"))
      ∧ t1w_is_skull_stripped (some (working_dir ++ "/t1w_skull_stripped.nii.gz")) =
        true) := by
  refine ⟨rfl, ?_, ?_⟩
  · intro h
    refine ⟨?_, rfl⟩
    simp only [t1w_skull_stripped_path, get_t1w_skull_stripped, h]
  · intro hall hex
    obtain ⟨f0, hf0⟩ := findMask_hit fs _ t1w_filename _ hall hex
    refine ⟨?_, rfl⟩
    simp only [t1w_skull_stripped_path, get_t1w_skull_stripped, hf0]

/-- Witness for C10 at a concrete input: the main dataset holds a matching
mask sidecar, so the search succeeds and no internal-masking fallback is
taken. -/
theorem C10_mask_search_precedes_internal_witness :
    t1w_skull_stripped_path none "/wk" "/b" "01" "1" "sub-01_ses-1_T1w.nii.gz"
      ["t1_mask.json", "x.json"] c10fs =
      Except.ok (some ("/wk" ++ "/t1w_skull_stripped.nii.gz")) := by
  have hfilter : (["t1_mask.json", "x.json"].filter
      (fun f => pyEndsWith f "_mask.json")) = ["t1_mask.json"] := rfl
  refine ((C10_mask_search_precedes_internal "/wk" "/b" "01" "1"
    "sub-01_ses-1_T1w.nii.gz" ["t1_mask.json", "x.json"] c10fs).2.2 ?_ ?_).1
  · intro f hf
    rw [hfilter, List.mem_singleton] at hf
    subst hf
    exact ⟨[("Sources",
        JVal.strArr ["bids:raw:sub-01/ses-1/anat/sub-01_ses-1_T1w.nii.gz"])],
      "bids:raw:sub-01/ses-1/anat/sub-01_ses-1_T1w.nii.gz", [], rfl, rfl⟩
  · refine ⟨"t1_mask.json", ?_,
      [("Sources",
        JVal.strArr ["bids:raw:sub-01/ses-1/anat/sub-01_ses-1_T1w.nii.gz"])],
      "bids:raw:sub-01/ses-1/anat/sub-01_ses-1_T1w.nii.gz", [], rfl, rfl, rfl⟩
    rw [hfilter]
    exact List.mem_singleton.mpr rfl

end BidsSynB0
